import Mathlib

/-!
Verification of the real-time traffic counting and aggregation pipeline.

The durable tables (minute/hour/day/week/month buckets) are modelled as
association lists from keys to integer counts, with the upsert operations
written exactly as the SQL issued by the source (insert .. on conflict do
update).  Timestamps are modelled at the granularity the code uses them:
civil day numbers (days since 0001-01-01, proleptic Gregorian), hour
numbers (24 per day) and minute numbers (60 per hour).  The Redis fast
counter for a single key is modelled as an Option Nat (none = key absent),
the in-memory event buffer and the websocket broadcast throttle as explicit
state records with one transition function per code path.
-/

namespace WebTraffic

/-! ## Association-list tables (durable bucket tables) -/

/-- A durable table keyed by α with integer counts, one row per key. -/
abbrev Table (α : Type) := List (α × Nat)

/-- First row with the given key, as the SQL select does. -/
def lookupTbl {α : Type} [DecidableEq α] : Table α → α → Option Nat
  | [], _ => none
  | p :: rest, k => if p.1 = k then some p.2 else lookupTbl rest k

/-- Whether a row with the given key exists. -/
def hasKey {α : Type} [DecidableEq α] : Table α → α → Bool
  | [], _ => false
  | p :: rest, k => if p.1 = k then true else hasKey rest k

/-- Apply f to the count of every row with the given key (SQL update). -/
def replaceVal {α : Type} [DecidableEq α] (tbl : Table α) (k : α) (f : Nat → Nat) : Table α :=
  tbl.map fun p => if p.1 = k then (p.1, f p.2) else p

/-- Insert .. on conflict do update set count := v (overwrite upsert). -/
def setTbl {α : Type} [DecidableEq α] (tbl : Table α) (k : α) (v : Nat) : Table α :=
  if hasKey tbl k then replaceVal tbl k (fun _ => v) else tbl ++ [(k, v)]

/-- Insert .. on conflict do update set count := count + v (increment upsert). -/
def addTbl {α : Type} [DecidableEq α] (tbl : Table α) (k : α) (v : Nat) : Table α :=
  if hasKey tbl k then replaceVal tbl k (fun old => old + v) else tbl ++ [(k, v)]

/-! ## Redis fast counter primitives (redis/index.ts, redisCounter)

The state of one counter key is an Option Nat: none when the key is absent
or expired, some v when the key holds value v. -/

/-- redisCounter.get: parseInt(result or "0"), 0 when the key is absent. -/
def counterGet (current : Option Nat) : Nat := current.getD 0

/-- redisCounter.initializeFromDb: reads the current value and writes dbValue
only when the key is absent or the stored value is below dbValue. -/
def initializeFromDb (current : Option Nat) (dbValue : Nat) : Option Nat :=
  match current with
  | none => some dbValue
  | some f => if f < dbValue then some dbValue else some f

/-- redisCounter.syncFromDb: writes dbValue whenever the currently read value
(0 when absent) differs from it. -/
def syncFromDb (current : Option Nat) (dbValue : Nat) : Option Nat :=
  if counterGet current ≠ dbValue then some dbValue else current

/-! ## Civil-date arithmetic (JS Date as used by the service)

A civil date is identified with its day number: days since 0001-01-01 in
the proleptic Gregorian calendar (day 0 = 0001-01-01, a Monday).  Hours
are numbered 24 per day and minutes 60 per hour, so minute, hour and day
bucket keys are all Nat. -/

/-- Gregorian leap year test. -/
def isLeap (y : Nat) : Bool := (y % 4 == 0 && y % 100 != 0) || y % 400 == 0

/-- Length of month m (1-12) in year y. -/
def daysInMonth (y m : Nat) : Nat :=
  if m = 2 then (if isLeap y then 29 else 28)
  else if m = 4 ∨ m = 6 ∨ m = 9 ∨ m = 11 then 30 else 31

/-- Days in all years before year y (years are 1-based). -/
def daysBeforeYear (y : Nat) : Nat :=
  365 * (y - 1) + ((y - 1) / 4 + (y - 1) / 400 - (y - 1) / 100)

/-- Days in the months of year y strictly before month m. -/
def daysBeforeMonth (y m : Nat) : Nat :=
  ((List.range (m - 1)).map (fun i => daysInMonth y (i + 1))).sum

/-- Day number of the civil date y-m-d. -/
def toDayNumber (y m d : Nat) : Nat :=
  daysBeforeYear y + daysBeforeMonth y m + (d - 1)

/-- Bounded upward search for the year containing day number n. -/
def yearSearch : Nat → Nat → Nat → Nat
  | 0, y, _ => y
  | fuel + 1, y, n => if daysBeforeYear (y + 1) ≤ n then yearSearch fuel (y + 1) n else y

/-- Calendar year of day number n (getFullYear). -/
def yearOfDayNumber (n : Nat) : Nat := yearSearch 16 (n / 366 + 1) n

/-- Bounded upward search for the month containing day-of-year offset r. -/
def monthSearch (y r : Nat) : Nat → Nat → Nat
  | 0, m => m
  | fuel + 1, m => if m < 12 ∧ daysBeforeMonth y (m + 1) ≤ r then monthSearch y r fuel (m + 1) else m

/-- Calendar month (1-12) of day number n (getMonth + 1). -/
def monthOfDayNumber (n : Nat) : Nat :=
  monthSearch (yearOfDayNumber n) (n - daysBeforeYear (yearOfDayNumber n)) 12 1

/-- JS Date.getDay: day of week with Sunday = 0.  Day 0 (0001-01-01) is a Monday. -/
def dayOfWeek (n : Nat) : Nat := (n + 1) % 7

/-- The dayNum of getWeekNumber: getUTCDay() with 0 replaced by 7 (ISO: Mon=1 .. Sun=7). -/
def isoDayNum (n : Nat) : Nat := if dayOfWeek n = 0 then 7 else dayOfWeek n

/-- TrafficService.getWeekNumber (services/traffic.ts): shift the date to the
Thursday of its Monday-based week, then take ceil(dayOfYear / 7). -/
def getWeekNumber (n : Nat) : Nat :=
  let d := n + 4 - isoDayNum n
  let doy := d - daysBeforeYear (yearOfDayNumber d) + 1
  (doy + 6) / 7

/-- Week start used by checkAndAggregateToWeek: the Sunday on or before the day. -/
def weekStartOf (n : Nat) : Nat := n - dayOfWeek n

/-- The (year, weekNumber) key under which checkAndAggregateToWeek stores the
week bucket of the given day: calendar year of the Sunday week start, and
getWeekNumber applied to that Sunday. -/
def weekKeyOfDay (n : Nat) : Nat × Nat :=
  (yearOfDayNumber (weekStartOf n), getWeekNumber (weekStartOf n))

/-- Modelled from the spec: the ISO-8601 week key (ISO year, ISO week number)
of a date, Thursday-anchored as the spec prescribes for week bucketing: the
week of a date is the week containing the Thursday of its Monday-based week,
its number is ceil(dayOfYear(thursday) / 7) and its year the year of that
Thursday. -/
def isoWeekKey (n : Nat) : Nat × Nat :=
  let th := n + 4 - isoDayNum n
  let doy := th - daysBeforeYear (yearOfDayNumber th) + 1
  (yearOfDayNumber th, (doy + 6) / 7)

/-! ## Aggregation engine (services/traffic.ts)

Bucket tables: minute buckets are keyed by minute number, hour buckets by
hour number, day buckets by day number, week buckets by (year, weekNumber)
and month buckets by (year, month).  Each checkAndAggregateToX step sums
the child rows in the parent range and, when the sum is positive, upserts
the parent row overwriting its count with that sum. -/

/-- Sum of the counts of all rows whose key lies in [lo, hi], as the SQL
COALESCE(SUM(count), 0) over a gte/lte-bounded where clause. -/
def sumInRange (tbl : Table Nat) (lo hi : Nat) : Nat :=
  ((tbl.filter fun p => lo ≤ p.1 && p.1 ≤ hi).map Prod.snd).sum

/-- Sum of the minute buckets falling in hour h (minutes 60h .. 60h+59). -/
def minuteSumInHour (minuteTbl : Table Nat) (h : Nat) : Nat :=
  sumInRange minuteTbl (60 * h) (60 * h + 59)

/-- checkAndAggregateToHour: sum the minute buckets of the hour; when the sum
is positive, upsert the hour bucket overwriting its count with the sum. -/
def checkAndAggregateToHour (minuteTbl hourTbl : Table Nat) (h : Nat) : Table Nat :=
  let total := minuteSumInHour minuteTbl h
  if 0 < total then setTbl hourTbl h total else hourTbl

/-- Sum of the hour buckets falling in day d (hours 24d .. 24d+23). -/
def hourSumInDay (hourTbl : Table Nat) (d : Nat) : Nat :=
  sumInRange hourTbl (24 * d) (24 * d + 23)

/-- checkAndAggregateToDay: sum the hour buckets of the day; when the sum is
positive, upsert the day bucket overwriting its count with the sum. -/
def checkAndAggregateToDay (hourTbl dayTbl : Table Nat) (d : Nat) : Table Nat :=
  let total := hourSumInDay hourTbl d
  if 0 < total then setTbl dayTbl d total else dayTbl

/-- Sum of the day buckets in the Sunday-anchored week starting at day ws. -/
def daySumInWeek (dayTbl : Table Nat) (ws : Nat) : Nat :=
  sumInRange dayTbl ws (ws + 6)

/-- checkAndAggregateToWeek: take the Sunday week start of the day, sum the
seven day buckets from it, and when positive store the sum under the key
(calendar year of the week start, getWeekNumber of the week start), updating
the existing row if one exists and inserting otherwise. -/
def checkAndAggregateToWeek (dayTbl : Table Nat) (weekTbl : Table (Nat × Nat))
    (day : Nat) : Table (Nat × Nat) :=
  let ws := weekStartOf day
  let total := daySumInWeek dayTbl ws
  if 0 < total then setTbl weekTbl (yearOfDayNumber ws, getWeekNumber ws) total else weekTbl

/-- Sum of the day buckets of the month (y, m). -/
def daySumInMonth (dayTbl : Table Nat) (y m : Nat) : Nat :=
  sumInRange dayTbl (toDayNumber y m 1) (toDayNumber y m (daysInMonth y m))

/-- checkAndAggregateToMonth: sum the day buckets between the first and last
day of the month of the given day; when positive, upsert the month bucket
keyed by (year, month) overwriting its count with the sum. -/
def checkAndAggregateToMonth (dayTbl : Table Nat) (monthTbl : Table (Nat × Nat))
    (day : Nat) : Table (Nat × Nat) :=
  let y := yearOfDayNumber day
  let m := monthOfDayNumber day
  let total := daySumInMonth dayTbl y m
  if 0 < total then setTbl monthTbl (y, m) total else monthTbl

/-! ## Minute-bucket flush writes (two code paths)

TrafficService.flushToDatabase (services/traffic.ts) writes each swapped-out
minute count with insert .. on conflict do update set count = count + n.
The batch worker (worker/event.worker.ts) instead reads the Redis minute
counter and, when positive, upserts the row overwriting count with the Redis
value. -/

/-- Minute-row write of TrafficService.flushToDatabase: increment upsert of
the flushed amount. -/
def flushMinuteUpsert (minuteTbl : Table Nat) (ts n : Nat) : Table Nat :=
  addTbl minuteTbl ts n

/-- Minute-row write of the batch worker: when the Redis minute counter is
positive, upsert the row overwriting count with the Redis value; when zero,
write nothing. -/
def workerMinuteSync (minuteTbl : Table Nat) (ts redisCount : Nat) : Table Nat :=
  if 0 < redisCount then setTbl minuteTbl ts redisCount else minuteTbl

/-! ## Event buffer and batcher (queues/event.queue.ts)

State of the module-level buffer.  Events are identified by their enqueue
time in ms.  flushTimer stores the absolute expiry time of the pending
setTimeout, inFlight the batch swapped out by a running flush, and
flushedBatches the batches successfully handed to the batch queue.
flushEventBuffer is split at its await point into a begin step (guard,
swap, submit) and an end step (success, or failure with the batch put
back in front of the live buffer). -/

def BATCH_SIZE : Nat := 100

def FLUSH_INTERVAL_MS : Nat := 300

structure EQState where
  eventBuffer : List Nat
  flushTimer : Option Nat
  isProcessingBuffer : Bool
  inFlight : List Nat
  flushedBatches : List (List Nat)
deriving DecidableEq

/-- The synchronous head of flushEventBuffer: clear the timer; return if the
buffer is empty or a flush is already running; otherwise mark processing,
swap the buffer out and submit it. -/
def flushEventBufferBegin (s : EQState) : EQState :=
  let s0 : EQState := { s with flushTimer := none }
  if s0.eventBuffer.isEmpty || s0.isProcessingBuffer then s0
  else { s0 with isProcessingBuffer := true, inFlight := s0.eventBuffer, eventBuffer := [] }

/-- Completion of the submitted batch write: on success the batch is recorded
and dropped; on failure the whole batch is put back in front of whatever is
in the live buffer; either way processing ends. -/
def flushEventBufferEnd (s : EQState) (succeeded : Bool) : EQState :=
  if succeeded then
    { s with flushedBatches := s.inFlight :: s.flushedBatches, inFlight := [],
             isProcessingBuffer := false }
  else
    { s with eventBuffer := s.inFlight ++ s.eventBuffer, inFlight := [],
             isProcessingBuffer := false }

/-- queueTrafficEvent at enqueue time t: append the event; if the buffer has
reached BATCH_SIZE, call flushEventBuffer at once; otherwise, when no timer
is pending and no flush is running, schedule a flush FLUSH_INTERVAL_MS from
now. -/
def queueTrafficEvent (s : EQState) (t : Nat) : EQState :=
  let s1 : EQState := { s with eventBuffer := s.eventBuffer ++ [t] }
  if BATCH_SIZE ≤ s1.eventBuffer.length then flushEventBufferBegin s1
  else if s1.flushTimer.isNone && !s1.isProcessingBuffer then
    { s1 with flushTimer := some (t + FLUSH_INTERVAL_MS) }
  else s1

/-! ## Live fan-out throttle (websocket/index.ts)

Messages carry the todayTotal of the originating publish event, modelled as
a Nat.  sends logs each broadcast as (time, content). -/

def minBroadcastInterval : Nat := 50

structure WSState where
  messageQueue : List Nat
  broadcastThrottleTimer : Option Nat
  lastBroadcastTime : Nat
  sends : List (Nat × Nat)
deriving DecidableEq

/-- processBroadcastQueue: nothing if the queue is empty; otherwise broadcast
the most recent queued message, clear the queue and stamp the broadcast
time. -/
def processBroadcastQueue (now : Nat) (s : WSState) : WSState :=
  match s.messageQueue.getLast? with
  | none => s
  | some latest =>
    { s with messageQueue := [], lastBroadcastTime := now,
             sends := s.sends ++ [(now, latest)] }

/-- handleRealtimeMessage at time now: queue the message; broadcast at once
when at least minBroadcastInterval has passed since the last broadcast,
else schedule a broadcast at lastBroadcastTime + minBroadcastInterval if no
timer is pending. -/
def handleRealtimeMessage (now m : Nat) (s : WSState) : WSState :=
  let s1 : WSState := { s with messageQueue := s.messageQueue ++ [m] }
  if minBroadcastInterval ≤ now - s1.lastBroadcastTime then processBroadcastQueue now s1
  else if s1.broadcastThrottleTimer.isNone then
    { s1 with broadcastThrottleTimer := some (s1.lastBroadcastTime + minBroadcastInterval) }
  else s1

/-- The throttle timer callback: clear the timer, then process the queue. -/
def throttleTimerFire (now : Nat) (s : WSState) : WSState :=
  processBroadcastQueue now { s with broadcastThrottleTimer := none }

end WebTraffic

namespace WebTraffic

/-! ## Table lemmas -/

theorem lookupTbl_replaceVal {α : Type} [DecidableEq α] (tbl : Table α) (k : α) (f : Nat → Nat) :
    lookupTbl (replaceVal tbl k f) k = (lookupTbl tbl k).map f := by
  induction tbl with
  | nil => rfl
  | cons p rest ih =>
    by_cases h : p.1 = k
    · simp [replaceVal, lookupTbl, h]
    · simp only [replaceVal, List.map_cons, if_neg h]
      simpa [lookupTbl, h] using ih

theorem replaceVal_of_not_hasKey {α : Type} [DecidableEq α] (tbl : Table α) (k : α)
    (f : Nat → Nat) (h : hasKey tbl k = false) : replaceVal tbl k f = tbl := by
  induction tbl with
  | nil => rfl
  | cons p rest ih =>
    by_cases hp : p.1 = k
    · simp [hasKey, hp] at h
    · simp only [hasKey, if_neg hp] at h
      simp [replaceVal, hp] at ih ⊢
      exact ih h

theorem hasKey_eq_isSome_lookupTbl {α : Type} [DecidableEq α] (tbl : Table α) (k : α) :
    hasKey tbl k = (lookupTbl tbl k).isSome := by
  induction tbl with
  | nil => rfl
  | cons p rest ih =>
    by_cases h : p.1 = k
    · simp [hasKey, lookupTbl, h]
    · simpa [hasKey, lookupTbl, h] using ih

theorem lookupTbl_append_self {α : Type} [DecidableEq α] (tbl : Table α) (k : α) (v : Nat)
    (h : hasKey tbl k = false) : lookupTbl (tbl ++ [(k, v)]) k = some v := by
  induction tbl with
  | nil => simp [lookupTbl]
  | cons p rest ih =>
    by_cases hp : p.1 = k
    · simp [hasKey, hp] at h
    · simp only [hasKey, if_neg hp] at h
      simpa [lookupTbl, hp] using ih h

theorem lookupTbl_setTbl {α : Type} [DecidableEq α] (tbl : Table α) (k : α) (v : Nat) :
    lookupTbl (setTbl tbl k v) k = some v := by
  unfold setTbl
  by_cases h : hasKey tbl k
  · rw [if_pos h, lookupTbl_replaceVal]
    rw [hasKey_eq_isSome_lookupTbl] at h
    cases hl : lookupTbl tbl k with
    | none => rw [hl] at h; simp at h
    | some w => simp
  · rw [if_neg h, lookupTbl_append_self tbl k v (by simpa using h)]

theorem lookupTbl_addTbl {α : Type} [DecidableEq α] (tbl : Table α) (k : α) (v : Nat) :
    lookupTbl (addTbl tbl k v) k = some ((lookupTbl tbl k).getD 0 + v) := by
  unfold addTbl
  by_cases h : hasKey tbl k
  · rw [if_pos h, lookupTbl_replaceVal]
    rw [hasKey_eq_isSome_lookupTbl] at h
    cases hl : lookupTbl tbl k with
    | none => rw [hl] at h; simp at h
    | some w => simp
  · rw [if_neg h, lookupTbl_append_self tbl k v (by simpa using h)]
    have : lookupTbl tbl k = none := by
      rw [hasKey_eq_isSome_lookupTbl] at h
      cases hl : lookupTbl tbl k with
      | none => rfl
      | some w => rw [hl] at h; simp at h
    simp [this]

theorem hasKey_append {α : Type} [DecidableEq α] (tbl : Table α) (k : α) (v : Nat) :
    hasKey (tbl ++ [(k, v)]) k = true := by
  induction tbl with
  | nil => simp [hasKey]
  | cons p rest ih =>
    by_cases hp : p.1 = k
    · simp [hasKey, hp]
    · simpa [hasKey, hp] using ih

theorem hasKey_replaceVal {α : Type} [DecidableEq α] (tbl : Table α) (k : α) (f : Nat → Nat) :
    hasKey (replaceVal tbl k f) k = hasKey tbl k := by
  induction tbl with
  | nil => rfl
  | cons p rest ih =>
    by_cases hp : p.1 = k
    · simp [replaceVal, hasKey, hp]
    · simp only [replaceVal, List.map_cons, if_neg hp] at ih ⊢
      simpa [hasKey, hp] using ih

theorem replaceVal_replaceVal {α : Type} [DecidableEq α] (tbl : Table α) (k : α)
    (f g : Nat → Nat) : replaceVal (replaceVal tbl k f) k g = replaceVal tbl k (fun x => g (f x)) := by
  induction tbl with
  | nil => rfl
  | cons p rest ih =>
    by_cases hp : p.1 = k
    · simp [replaceVal, hp] at ih ⊢
      exact ih
    · simp [replaceVal, hp] at ih ⊢
      exact ih

theorem replaceVal_append {α : Type} [DecidableEq α] (a b : Table α) (k : α) (f : Nat → Nat) :
    replaceVal (a ++ b) k f = replaceVal a k f ++ replaceVal b k f := by
  simp [replaceVal]

theorem setTbl_setTbl {α : Type} [DecidableEq α] (tbl : Table α) (k : α) (v w : Nat) :
    setTbl (setTbl tbl k v) k w = setTbl tbl k w := by
  by_cases h : hasKey tbl k
  · unfold setTbl
    rw [if_pos h]
    rw [if_pos (by rw [hasKey_replaceVal]; exact h)]
    rw [replaceVal_replaceVal, if_pos h]
  · unfold setTbl
    rw [if_neg h, if_pos (hasKey_append tbl k v), if_neg h]
    rw [replaceVal_append]
    rw [replaceVal_of_not_hasKey tbl k _ (by simpa using h)]
    simp [replaceVal]

/-! ## Event-queue lemmas -/

theorem queueTrafficEvent_during_flight (s : EQState) (t : Nat)
    (hp : s.isProcessingBuffer = true) (ht : s.flushTimer = none) :
    queueTrafficEvent s t = { s with eventBuffer := s.eventBuffer ++ [t] } := by
  obtain ⟨buf, tm, pr, inf, fb⟩ := s
  simp only at hp ht
  subst hp; subst ht
  have hfb : ∀ b i f, flushEventBufferBegin ⟨b, none, true, i, f⟩ = ⟨b, none, true, i, f⟩ := by
    intro b i f
    simp [flushEventBufferBegin]
  by_cases hlen : BATCH_SIZE ≤ (buf ++ [t]).length
  · simp [queueTrafficEvent, hlen, hfb]
  · simp [queueTrafficEvent, hlen, hfb]

theorem foldl_enqueue_during_flight (ts : List Nat) (s : EQState)
    (hp : s.isProcessingBuffer = true) (ht : s.flushTimer = none) :
    ts.foldl queueTrafficEvent s = { s with eventBuffer := s.eventBuffer ++ ts } := by
  induction ts generalizing s with
  | nil => obtain ⟨buf, tm, pr, inf, fb⟩ := s; simp
  | cons t rest ih =>
    rw [List.foldl_cons, queueTrafficEvent_during_flight s t hp ht,
      ih _ (by simpa using hp) (by simpa using ht)]
    obtain ⟨buf, tm, pr, inf, fb⟩ := s
    simp

theorem flushEventBufferBegin_swap (s : EQState)
    (hp : s.isProcessingBuffer = false) (hne : s.eventBuffer ≠ []) :
    flushEventBufferBegin s = ⟨[], none, true, s.eventBuffer, s.flushedBatches⟩ := by
  obtain ⟨buf, tm, pr, inf, fb⟩ := s
  simp only at hp hne
  subst hp
  simp [flushEventBufferBegin, List.isEmpty_iff, hne]

/-! ## Claim C1: hour aggregation overwrites and is idempotent -/

/-- C1 counterexample: with an empty MinuteBucket table the freshly computed
sum for hour 0 is 0, yet the aggregation step does not upsert the HourBucket
with that sum: an existing row (0, 5) is left untouched rather than being
overwritten with 0, refuting the unconditional upsert in the claim. -/
theorem hour_aggregation_zero_sum_counterexample :
    minuteSumInHour ([] : Table Nat) 0 = 0 ∧
    checkAndAggregateToHour [] [(0, 5)] 0 = [(0, 5)] ∧
    lookupTbl (checkAndAggregateToHour [] [(0, 5)] 0) 0 = some 5 := by
  decide

/-- C1 (amended): for every MinuteBucket table, HourBucket table and hour,
whenever the freshly computed minute sum of the hour is positive the
aggregation step upserts the HourBucket overwriting it with exactly that sum
(insert if absent, else replace, never increment), and in every case running
the step twice in a row leaves precisely the state of running it once. -/
theorem hour_aggregation_overwrite_idempotent (minuteTbl hourTbl : Table Nat) (h : Nat) :
    (0 < minuteSumInHour minuteTbl h →
      lookupTbl (checkAndAggregateToHour minuteTbl hourTbl h) h
        = some (minuteSumInHour minuteTbl h)) ∧
    checkAndAggregateToHour minuteTbl (checkAndAggregateToHour minuteTbl hourTbl h) h
      = checkAndAggregateToHour minuteTbl hourTbl h := by
  unfold checkAndAggregateToHour
  by_cases hpos : 0 < minuteSumInHour minuteTbl h
  · simp only [if_pos hpos]
    exact ⟨fun _ => lookupTbl_setTbl hourTbl h _, setTbl_setTbl hourTbl h _ _⟩
  · simp only [if_neg hpos]
    exact ⟨fun hc => absurd hc hpos, by simp⟩

/-- C1 witness: with one minute bucket of 2 hits in hour 0 and an existing
hour bucket of 7, the step overwrites the hour bucket with 2. -/
theorem hour_aggregation_overwrite_idempotent_witness :
    0 < minuteSumInHour [(0, 2)] 0 ∧
    lookupTbl (checkAndAggregateToHour [(0, 2)] [(0, 7)] 0) 0 = some 2 :=
  ⟨by decide, by
    have h := (hour_aggregation_overwrite_idempotent [(0, 2)] [(0, 7)] 0).1 (by decide)
    simpa using h⟩

/-! ## Claim C2: initializeFromDb never drops below the durable floor -/

/-- C2: initializeFromDb sets the fast value to the durable value when the
key is absent or the current value is lower, keeps the current value when it
is at least the durable value, and in all cases the resulting value is at
least the durable floor. -/
theorem initializeFromDb_durable_floor (f D : Nat) :
    initializeFromDb none D = some D ∧
    (f < D → initializeFromDb (some f) D = some D) ∧
    (D ≤ f → initializeFromDb (some f) D = some f) ∧
    D ≤ counterGet (initializeFromDb (some f) D) ∧
    D ≤ counterGet (initializeFromDb none D) := by
  unfold initializeFromDb counterGet
  by_cases h : f < D
  · simp [h]
  · simp [h]
    omega

/-- C2 witness: a stale durable read of 5 lifts a lower fast value 3 to 5,
and leaves a higher in-flight value 9 untouched. -/
theorem initializeFromDb_durable_floor_witness :
    initializeFromDb (some 3) 5 = some 5 ∧ initializeFromDb (some 9) 5 = some 9 :=
  ⟨(initializeFromDb_durable_floor 3 5).2.1 (by decide),
   (initializeFromDb_durable_floor 9 5).2.2.1 (by decide)⟩

/-! ## Claim C3: flush swaps atomically and restores the batch on failure -/

/-- C3: starting a flush (with no flush already running and a non-empty
buffer) swaps the whole pending list out, leaving an empty live buffer,
before the durable write is attempted; for any events enqueued while the
write is in flight, a failed write puts the entire swapped-out batch back in
front of the live buffer (failed batch plus the newly enqueued events, no
event dropped), while a successful write drops exactly the batch and records
it. -/
theorem flush_swap_and_restore_on_failure (s : EQState) (ts : List Nat)
    (hp : s.isProcessingBuffer = false) (hne : s.eventBuffer ≠ []) :
    (flushEventBufferBegin s).eventBuffer = [] ∧
    (flushEventBufferBegin s).inFlight = s.eventBuffer ∧
    (flushEventBufferEnd (ts.foldl queueTrafficEvent (flushEventBufferBegin s)) false).eventBuffer
      = s.eventBuffer ++ ts ∧
    (flushEventBufferEnd (ts.foldl queueTrafficEvent (flushEventBufferBegin s)) false).isProcessingBuffer
      = false ∧
    (flushEventBufferEnd (ts.foldl queueTrafficEvent (flushEventBufferBegin s)) true).eventBuffer
      = ts ∧
    (flushEventBufferEnd (ts.foldl queueTrafficEvent (flushEventBufferBegin s)) true).flushedBatches
      = s.eventBuffer :: s.flushedBatches := by
  rw [flushEventBufferBegin_swap s hp hne]
  rw [foldl_enqueue_during_flight ts _ rfl rfl]
  simp [flushEventBufferEnd]

/-- C3 witness: a flush of buffer [1, 2] with [3] enqueued during the write
leaves buffer [1, 2, 3] after a failed write. -/
theorem flush_swap_and_restore_on_failure_witness :
    (flushEventBufferEnd ([3].foldl queueTrafficEvent
        (flushEventBufferBegin ⟨[1, 2], none, false, [], []⟩)) false).eventBuffer
      = [1, 2, 3] :=
  (flush_swap_and_restore_on_failure ⟨[1, 2], none, false, [], []⟩ [3]
    (by decide) (by decide)).2.2.1

/-! ## Claim C4: week bucketing is Sunday-anchored, not ISO -/

/-- C4 counterexample: the Saturday 2024-03-09 and the following Sunday
2024-03-10 are distinct DayBucket keys, but checkAndAggregateToWeek assigns
them two different WeekBucket keys ((2024, 9) and (2024, 10)), refuting the
claim that they are aggregated into the same ISO WeekBucket. -/
theorem week_bucket_iso_counterexample :
    toDayNumber 2024 3 9 ≠ toDayNumber 2024 3 10 ∧
    dayOfWeek (toDayNumber 2024 3 9) = 6 ∧
    dayOfWeek (toDayNumber 2024 3 10) = 0 ∧
    weekKeyOfDay (toDayNumber 2024 3 9) ≠ weekKeyOfDay (toDayNumber 2024 3 10) := by
  decide

/-- C4 (amended): week grouping is Sunday-anchored: every Saturday closes the
week starting six days earlier while the following Sunday opens a new week,
so the two hits land in different WeekBuckets; the stored key applies the
Thursday-anchored getWeekNumber to the Sunday week start and pairs it with
that Sunday's calendar year (for the pair above: (2024, 9) versus (2024, 10),
whereas ISO-8601 of the spec puts both dates in ISO week (2024, 10)). -/
theorem week_bucket_sunday_anchored (n : Nat) (hsat : dayOfWeek n = 6) :
    weekStartOf n = n - 6 ∧
    weekStartOf (n + 1) = n + 1 ∧
    weekStartOf n ≠ weekStartOf (n + 1) ∧
    weekKeyOfDay (toDayNumber 2024 3 9) = (2024, 9) ∧
    weekKeyOfDay (toDayNumber 2024 3 10) = (2024, 10) ∧
    isoWeekKey (toDayNumber 2024 3 9) = (2024, 10) ∧
    isoWeekKey (toDayNumber 2024 3 10) = (2024, 10) := by
  refine ⟨?_, ?_, ?_, by decide, by decide, by decide, by decide⟩
  · unfold dayOfWeek at hsat
    unfold weekStartOf dayOfWeek
    omega
  · unfold dayOfWeek at hsat
    unfold weekStartOf dayOfWeek
    omega
  · unfold dayOfWeek at hsat
    unfold weekStartOf dayOfWeek
    omega

/-- C4 witness: instantiated at the Saturday 2024-03-09. -/
theorem week_bucket_sunday_anchored_witness :
    weekStartOf (toDayNumber 2024 3 9) ≠ weekStartOf (toDayNumber 2024 3 9 + 1) ∧
    weekKeyOfDay (toDayNumber 2024 3 9) = (2024, 9) :=
  ⟨(week_bucket_sunday_anchored (toDayNumber 2024 3 9) (by decide)).2.2.1,
   (week_bucket_sunday_anchored (toDayNumber 2024 3 9) (by decide)).2.2.2.1⟩

/-! ## Claim C5: single-flight guard on the event buffer flush -/

/-- C5: while a flush is in flight (isProcessingBuffer = true), a second
invocation of flushEventBuffer does not swap the buffer, does not submit a
batch and does not touch the in-flight batch; apart from clearing a pending
timer it is the identity, and with no timer pending (which holds in every
reachable in-flight state) it changes nothing at all. -/
theorem flush_single_flight_guard (s : EQState) (hp : s.isProcessingBuffer = true) :
    (flushEventBufferBegin s).eventBuffer = s.eventBuffer ∧
    (flushEventBufferBegin s).inFlight = s.inFlight ∧
    (flushEventBufferBegin s).flushedBatches = s.flushedBatches ∧
    (flushEventBufferBegin s).isProcessingBuffer = true ∧
    (s.flushTimer = none → flushEventBufferBegin s = s) := by
  obtain ⟨buf, tm, pr, inf, fb⟩ := s
  simp only at hp
  subst hp
  refine ⟨by simp [flushEventBufferBegin], by simp [flushEventBufferBegin],
    by simp [flushEventBufferBegin], by simp [flushEventBufferBegin], ?_⟩
  intro ht
  simp only at ht
  subst ht
  simp [flushEventBufferBegin]

/-- C5 witness: a second flush trigger during an in-flight flush of batch
[4] with buffer [9] changes nothing. -/
theorem flush_single_flight_guard_witness :
    flushEventBufferBegin ⟨[9], none, true, [4], []⟩ = ⟨[9], none, true, [4], []⟩ :=
  (flush_single_flight_guard ⟨[9], none, true, [4], []⟩ (by decide)).2.2.2.2 (by decide)

/-! ## Claim C6: flush triggers (size immediate, timer only when idle) -/

/-- C6 counterexample: enqueue an event at t = 0 (timer set for t = 300),
fire the timer at t = 300 starting a flush, enqueue a second event at
t = 301 while the flush is in flight, and let the flush complete. The final
state has the second event still buffered with no timer pending and no flush
running, so no flush of it occurs within 300 ms of its enqueue (or ever,
absent further enqueues), refuting the claimed FLUSH_INTERVAL bound. -/
theorem flush_interval_counterexample :
    flushEventBufferEnd
        (queueTrafficEvent (flushEventBufferBegin (queueTrafficEvent ⟨[], none, false, [], []⟩ 0)) 301)
        true
      = ⟨[301], none, false, [], [[0]]⟩ := by
  decide

/-- C6 (amended): an enqueue that brings the buffer to BATCH_SIZE while no
flush is running starts a flush immediately, swapping the full buffer out;
an enqueue below BATCH_SIZE schedules a timer flush FLUSH_INTERVAL_MS after
the enqueue only when no timer is pending and no flush is in flight; an
enqueue below BATCH_SIZE while a flush is in flight only appends the event,
scheduling nothing, so such an event may wait beyond FLUSH_INTERVAL_MS for
the next enqueue or size trigger. -/
theorem flush_trigger_semantics (s : EQState) (t : Nat) :
    (s.isProcessingBuffer = false → BATCH_SIZE ≤ s.eventBuffer.length + 1 →
      (queueTrafficEvent s t).isProcessingBuffer = true ∧
      (queueTrafficEvent s t).inFlight = s.eventBuffer ++ [t] ∧
      (queueTrafficEvent s t).eventBuffer = []) ∧
    (s.eventBuffer.length + 1 < BATCH_SIZE → s.flushTimer = none →
      s.isProcessingBuffer = false →
      (queueTrafficEvent s t).flushTimer = some (t + FLUSH_INTERVAL_MS) ∧
      (queueTrafficEvent s t).eventBuffer = s.eventBuffer ++ [t]) ∧
    (s.eventBuffer.length + 1 < BATCH_SIZE → s.isProcessingBuffer = true →
      queueTrafficEvent s t = { s with eventBuffer := s.eventBuffer ++ [t] }) := by
  obtain ⟨buf, tm, pr, inf, fb⟩ := s
  refine ⟨?_, ?_, ?_⟩
  · intro hp hlen
    simp only at hp hlen
    subst hp
    have hlen3 : BATCH_SIZE ≤ buf.length + 1 := hlen
    simp [queueTrafficEvent, hlen3, flushEventBufferBegin]
  · intro hlen ht hp
    simp only at hlen ht hp
    subst ht; subst hp
    have hlt : ¬ BATCH_SIZE ≤ buf.length + 1 := by omega
    simp [queueTrafficEvent, hlt]
  · intro hlen hp
    simp only at hlen hp
    subst hp
    have hlt : ¬ BATCH_SIZE ≤ buf.length + 1 := by omega
    cases tm with
    | none => simp [queueTrafficEvent, hlt]
    | some e => simp [queueTrafficEvent, hlt]

/-- C6 witness: the 100th event triggers an immediate swap of all 100
events; a first event into an idle empty buffer schedules a timer at
t + 300; an event enqueued during an in-flight flush only appends. -/
theorem flush_trigger_semantics_witness :
    (queueTrafficEvent ⟨List.replicate 99 0, none, false, [], []⟩ 5).isProcessingBuffer = true ∧
    (queueTrafficEvent ⟨[], none, false, [], []⟩ 7).flushTimer = some 307 ∧
    queueTrafficEvent ⟨[2], none, true, [1], []⟩ 9 = ⟨[2, 9], none, true, [1], []⟩ :=
  ⟨((flush_trigger_semantics ⟨List.replicate 99 0, none, false, [], []⟩ 5).1 rfl (by decide)).1,
   ((flush_trigger_semantics ⟨[], none, false, [], []⟩ 7).2.1 (by decide) rfl rfl).1,
   (flush_trigger_semantics ⟨[2], none, true, [1], []⟩ 9).2.2 (by decide) rfl⟩

/-! ## Claim C7: minute-bucket flush writes -/

/-- C7 counterexample: the batch worker path does not add the flushed amount
to the existing MinuteBucket count: with an existing row (minute 0, count
10) and a Redis minute counter of 3, the worker overwrites the row to 3
rather than incrementing it to 13. -/
theorem worker_minute_overwrite_counterexample :
    workerMinuteSync [(0, 10)] 0 3 = [(0, 3)] ∧
    lookupTbl (workerMinuteSync [(0, 10)] 0 3) 0 = some 3 := by
  decide

/-- C7 (amended): the TrafficService.flushToDatabase path creates the
MinuteBucket row if absent and otherwise increments it by the flushed
amount, while the batch worker path instead overwrites the row with the
Redis minute counter value whenever that value is positive. -/
theorem minute_flush_write_semantics (minuteTbl : Table Nat) (ts n rc : Nat) :
    lookupTbl (flushMinuteUpsert minuteTbl ts n) ts
      = some ((lookupTbl minuteTbl ts).getD 0 + n) ∧
    (0 < rc → lookupTbl (workerMinuteSync minuteTbl ts rc) ts = some rc) := by
  constructor
  · exact lookupTbl_addTbl minuteTbl ts n
  · intro h
    unfold workerMinuteSync
    rw [if_pos h]
    exact lookupTbl_setTbl minuteTbl ts rc

/-- C7 witness: flushing 4 hits into an existing minute row of 6 yields 10
on the service path, while the worker path overwrites the same row to the
Redis value 3. -/
theorem minute_flush_write_semantics_witness :
    lookupTbl (flushMinuteUpsert [(0, 6)] 0 4) 0 = some 10 ∧
    lookupTbl (workerMinuteSync [(0, 6)] 0 3) 0 = some 3 :=
  ⟨by simpa using (minute_flush_write_semantics [(0, 6)] 0 4 3).1,
   (minute_flush_write_semantics [(0, 6)] 0 4 3).2 (by decide)⟩

/-! ## Claim C8: syncFromDb is an unconditional overwrite -/

/-- C8: after syncFromDb the value read for the key equals exactly the
durable value, whether the previous fast value was lower, equal or higher:
the durable store is authoritative. -/
theorem syncFromDb_overwrites (current : Option Nat) (D : Nat) :
    counterGet (syncFromDb current D) = D := by
  unfold syncFromDb
  by_cases h : counterGet current = D
  · simp [h]
  · simp [h]
    unfold counterGet
    simp

/-! ## Claim C9: broadcast throttle coalesces to the most recent event -/

/-- C9: a publish event arriving within minBroadcastInterval of the last
broadcast sends nothing, only queues, and (when no timer is pending)
schedules the deferred broadcast exactly one interval after the last one;
every broadcast sends the most recent queued message and clears the queue;
and a concrete burst of 20 events within 10 ms starting from idle produces
exactly two sends, the last carrying the data of event 20. -/
theorem broadcast_throttle_coalesce (s : WSState) (now m : Nat) :
    (now - s.lastBroadcastTime < minBroadcastInterval →
      (handleRealtimeMessage now m s).sends = s.sends ∧
      (handleRealtimeMessage now m s).messageQueue = s.messageQueue ++ [m] ∧
      (s.broadcastThrottleTimer = none →
        (handleRealtimeMessage now m s).broadcastThrottleTimer
          = some (s.lastBroadcastTime + minBroadcastInterval))) ∧
    (s.messageQueue ≠ [] →
      (processBroadcastQueue now s).sends
        = s.sends ++ [(now, (s.messageQueue.getLast?).getD 0)] ∧
      (processBroadcastQueue now s).messageQueue = [] ∧
      (processBroadcastQueue now s).lastBroadcastTime = now) ∧
    (throttleTimerFire 1050
        ((List.range 20).foldl
          (fun st i => handleRealtimeMessage (1000 + i / 2) (i + 1) st)
          ⟨[], none, 0, []⟩)).sends = [(1000, 1), (1050, 20)] := by
  refine ⟨?_, ?_, by decide⟩
  · intro hlt
    have hcond : ¬ minBroadcastInterval ≤ now - s.lastBroadcastTime := by omega
    unfold handleRealtimeMessage
    rw [if_neg hcond]
    by_cases htm : s.broadcastThrottleTimer.isNone
    · simp [htm]
    · have : s.broadcastThrottleTimer ≠ none := by simpa [Option.isNone_iff_eq_none] using htm
      simp [htm, this]
  · intro hne
    unfold processBroadcastQueue
    cases hq : s.messageQueue.getLast? with
    | none =>
      exact absurd (by simpa using hq) hne
    | some latest =>
      simp [hq]

/-- C9 witness: an event at t = 120 with last broadcast at t = 100 is queued
without a send, and processing a non-empty queue sends its most recent
message. -/
theorem broadcast_throttle_coalesce_witness :
    (handleRealtimeMessage 120 9 ⟨[7], none, 100, []⟩).sends = [] ∧
    (processBroadcastQueue 120 ⟨[7, 8], none, 100, []⟩).sends = [(120, 8)] :=
  ⟨((broadcast_throttle_coalesce ⟨[7], none, 100, []⟩ 120 9).1 (by decide)).1,
   by simpa using
     ((broadcast_throttle_coalesce ⟨[7, 8], none, 100, []⟩ 120 9).2.1 (by decide)).1⟩

/-! ## Claim C10: zero child sum means no durable write -/

/-- C10: at every granularity, when the freshly computed child sum is 0 the
aggregation step performs no write at all: the parent table is returned
unchanged, so an existing parent bucket is never overwritten down to 0 and
no bucket row is created for a period with zero traffic. -/
theorem zero_sum_aggregation_no_write :
    (∀ minuteTbl hourTbl h, minuteSumInHour minuteTbl h = 0 →
      checkAndAggregateToHour minuteTbl hourTbl h = hourTbl) ∧
    (∀ hourTbl dayTbl d, hourSumInDay hourTbl d = 0 →
      checkAndAggregateToDay hourTbl dayTbl d = dayTbl) ∧
    (∀ dayTbl weekTbl day, daySumInWeek dayTbl (weekStartOf day) = 0 →
      checkAndAggregateToWeek dayTbl weekTbl day = weekTbl) ∧
    (∀ dayTbl monthTbl day,
      daySumInMonth dayTbl (yearOfDayNumber day) (monthOfDayNumber day) = 0 →
      checkAndAggregateToMonth dayTbl monthTbl day = monthTbl) := by
  refine ⟨?_, ?_, ?_, ?_⟩
  · intro minuteTbl hourTbl h hz
    unfold checkAndAggregateToHour
    simp [hz]
  · intro hourTbl dayTbl d hz
    unfold checkAndAggregateToDay
    simp [hz]
  · intro dayTbl weekTbl day hz
    unfold checkAndAggregateToWeek
    simp [hz]
  · intro dayTbl monthTbl day hz
    unfold checkAndAggregateToMonth
    simp [hz]

/-- C10 witness: with an empty child table every step leaves a non-empty
parent table untouched. -/
theorem zero_sum_aggregation_no_write_witness :
    checkAndAggregateToHour [] [(0, 5)] 3 = [(0, 5)] ∧
    checkAndAggregateToDay [] [(0, 5)] 3 = [(0, 5)] ∧
    checkAndAggregateToWeek [] [((2024, 1), 5)] 3 = [((2024, 1), 5)] ∧
    checkAndAggregateToMonth [] [((2024, 1), 5)] 3 = [((2024, 1), 5)] :=
  ⟨zero_sum_aggregation_no_write.1 [] [(0, 5)] 3 (by decide),
   zero_sum_aggregation_no_write.2.1 [] [(0, 5)] 3 (by decide),
   zero_sum_aggregation_no_write.2.2.1 [] [((2024, 1), 5)] 3 (by decide),
   zero_sum_aggregation_no_write.2.2.2 [] [((2024, 1), 5)] 3 (by decide)⟩

end WebTraffic
